import Mathlib

/-!
Shallow embedding of `flowVersionManager.js` (Salesforce Flow Version
Manager LWC component).  Pure state is carried explicitly in a
`ManagerState` record; every event handler of the component becomes a
function from its inputs (plus the resolved value of any awaited service
call) and the current state to the next state together with its visible
outputs (toasts, console logs, issued requests).
-/

namespace FlowVersionManager

/-- Boolean test that `pre` is a prefix of the second list (character
comparison); helper for the JS `String.prototype.includes` embedding. -/
def startsWithChars : List Char → List Char → Bool
  | [], _ => true
  | _ :: _, [] => false
  | a :: as, b :: bs => a == b && startsWithChars as bs

/-- Boolean substring containment on character lists. -/
def containsChars (needle : List Char) : List Char → Bool
  | [] => startsWithChars needle []
  | h :: t => startsWithChars needle (h :: t) || containsChars needle t

/-- Embedding of JS `hay.includes(needle)` (substring containment). -/
def strIncludes (hay needle : String) : Bool :=
  containsChars needle.data hay.data

/-- Embedding of JS `toLowerCase()`: lower-case every character. -/
def strToLower (s : String) : String :=
  ⟨s.data.map Char.toLower⟩

/-- One toast notification dispatched via `ShowToastEvent`
(`showSuccess` / `showWarning` / `showError`). -/
inductive Toast where
  | success (message : String)
  | warning (message : String)
  | error (message : String)
deriving DecidableEq, Repr

/-- Is this toast an error toast (variant `error`)? -/
def Toast.isError : Toast → Bool
  | .error _ => true
  | _ => false

/-- Raw flow-version record as returned by the Apex `getFlowVersions`
service, before `processVersionData` decorates it. -/
structure VersionDetail where
  id : String
  versionNumber : Nat
  isActive : Bool
  apiVersion : String
  lastModifiedDate : String
  processType : String
deriving DecidableEq, Repr

/-- Decorated flow-version row as produced by `processVersionData`
(spread of the raw record plus UI-derived fields). The locale-dependent
`lastModifiedDateFormatted` rendering is not modelled. -/
structure Version where
  id : String
  versionNumber : Nat
  isActive : Bool
  apiVersion : String
  lastModifiedDate : String
  processType : String
  flowName : String
  flowRecordId : String
  isSelected : Bool
  processTypeLabel : String
  statusClass : String
  rowClass : String
deriving DecidableEq, Repr

/-- Raw flow-definition summary as returned by `getFlowDefinitions`. -/
structure FlowSummary where
  id : String
  developerName : String
  label : Option String
  processType : String
  activeVersionId : Option String
  isActive : Bool
  versionCount : Option Nat
  flowRecordId : String
deriving DecidableEq, Repr

/-- Decorated flow row as produced by `processFlowData` and mutated by
the expansion / selection handlers. -/
structure Flow where
  id : String
  developerName : String
  label : Option String
  processType : String
  activeVersionId : Option String
  isActive : Bool
  versionCount : Option Nat
  flowRecordId : String
  isExpanded : Bool
  isLoadingVersions : Bool
  expandIcon : String
  versionLabel : String
  processTypeLabel : String
  allInactiveSelected : Bool
  hasNoInactive : Bool
  versionsLoaded : Bool
  versions : List Version
deriving DecidableEq, Repr

/-- Page of flow definitions returned by `getFlowDefinitions`. -/
structure FlowPage where
  flows : List FlowSummary
  hasMore : Bool
  totalLoaded : Nat
deriving DecidableEq, Repr

/-- The static `PROCESS_TYPE_LABELS` table. -/
def PROCESS_TYPE_LABELS : String → Option String
  | "AutoLaunchedFlow" => some "Autolaunched"
  | "Flow" => some "Screen Flow"
  | "Workflow" => some "Workflow"
  | "CustomEvent" => some "Platform Event"
  | "InvocableProcess" => some "Invocable Process"
  | "LoginFlow" => some "Login Flow"
  | "ActionPlan" => some "Action Plan"
  | "JourneyBuilderIntegration" => some "Journey Builder"
  | "ContactRequestFlow" => some "Contact Request"
  | "Survey" => some "Survey"
  | "SurveyEnrich" => some "Survey Enrich"
  | "Appointments" => some "Appointments"
  | "FSCLending" => some "FSC Lending"
  | "DigitalForm" => some "Digital Form"
  | "FieldServiceMobile" => some "Field Service Mobile"
  | "OrchestrationFlow" => some "Orchestration"
  | "RoutingFlow" => some "Routing Flow"
  | "ServiceCatalogItemFlow" => some "Service Catalog"
  | "ManagedContentFlow" => some "Managed Content"
  | "CheckoutFlow" => some "Checkout Flow"
  | "CartAsyncFlow" => some "Cart Async"
  | "TransactionSecurityFlow" => some "Transaction Security"
  | "RecordTriggeredFlow" => some "Record-Triggered"
  | "ScreenFlow" => some "Screen Flow"
  | "ScheduleTriggeredFlow" => some "Schedule-Triggered"
  | _ => none

/-- The template string for a known version count:
`${n} version${n !== 1 ? "s" : ""}`. -/
def versionCountLabel (n : Nat) : String :=
  toString n ++ " version" ++ (if n ≠ 1 then "s" else "")

/-- `processFlowData`: decorate a fetched page of flow summaries. -/
def processFlowData (data : List FlowSummary) : List Flow :=
  data.map fun flow =>
    { id := flow.id
      developerName := flow.developerName
      label := flow.label
      processType := flow.processType
      activeVersionId := flow.activeVersionId
      isActive := flow.isActive
      versionCount := flow.versionCount
      flowRecordId := flow.flowRecordId
      isExpanded := false
      isLoadingVersions := false
      expandIcon := "utility:chevronright"
      versionLabel :=
        match flow.versionCount with
        | some n => versionCountLabel n
        | none => "Click to load"
      processTypeLabel := (PROCESS_TYPE_LABELS flow.processType).getD flow.processType
      allInactiveSelected := false
      hasNoInactive := true
      versionsLoaded := false
      versions := [] }

/-- `processVersionData`: decorate a fetched version list for one flow.
`selectedVersionIds` is the component field the JS method reads. -/
def processVersionData (versions : List VersionDetail) (flowName flowRecordId : String)
    (selectedVersionIds : Finset String) : List Version :=
  versions.map fun version =>
    { id := version.id
      versionNumber := version.versionNumber
      isActive := version.isActive
      apiVersion := version.apiVersion
      lastModifiedDate := version.lastModifiedDate
      processType := version.processType
      flowName := flowName
      flowRecordId := flowRecordId
      isSelected := decide (version.id ∈ selectedVersionIds)
      processTypeLabel := (PROCESS_TYPE_LABELS version.processType).getD version.processType
      statusClass :=
        if version.isActive then "slds-m-left_xx-small slds-badge_success"
        else "slds-m-left_xx-small"
      rowClass := if version.isActive then "version-row version-active" else "version-row" }

/-- `checkAllInactiveSelected`: every inactive version (of a non-empty
inactive subset) is in the selection set. -/
def checkAllInactiveSelected (versions : List Version)
    (selectedVersionIds : Finset String) : Bool :=
  let inactiveVersions := versions.filter fun v => !v.isActive
  decide (0 < inactiveVersions.length) &&
    inactiveVersions.all fun v => decide (v.id ∈ selectedVersionIds)

/-- The component's reactive state (the `@track`/plain fields of the
`FlowVersionManager` class). The JS `Set` of selected ids is embedded as
a `Finset String`. -/
structure ManagerState where
  sessionId : String
  flows : List Flow
  selectedVersionIds : Finset String
  isLoading : Bool
  accessDenied : Bool
  searchTerm : String
  filterType : String
  filterStatus : String
  hasMoreFlows : Bool
  currentOffset : Nat
  isLoadingMore : Bool
  showDeleteModal : Bool
  isDeleting : Bool
  deletionProgress : Nat
  deletedCount : Nat
  totalToDelete : Nat
deriving DecidableEq

/-- The `filteredFlows` getter: three sequential client-side filters
(search term on name/label, exact process type, active status). A blank
string is falsy in JS, hence the emptiness tests. -/
def filteredFlows (s : ManagerState) : List Flow :=
  let result := s.flows
  let result :=
    if s.searchTerm ≠ "" then
      let term := strToLower s.searchTerm
      result.filter fun flow =>
        strIncludes (strToLower flow.developerName) term ||
          (match flow.label with
           | some l => strIncludes (strToLower l) term
           | none => false)
    else result
  let result :=
    if s.filterType ≠ "" then
      result.filter fun flow => flow.processType == s.filterType
    else result
  let result :=
    if s.filterStatus ≠ "" then
      let showActive := s.filterStatus == "Active"
      result.filter fun flow => flow.isActive == showActive
    else result
  result

/-- The `noResults` getter. -/
def noResults (s : ManagerState) : Bool :=
  !s.isLoading && decide ((filteredFlows s).length = 0)

/-- The `offsetValue` sent to `getFlowDefinitions` by `loadFlows`: the
non-append branch resets `currentOffset` to 0 before the request is
built, so a first load always requests offset 0 and a load-more requests
the current offset. -/
def loadFlowsRequestOffset (append : Bool) (s : ManagerState) : Nat :=
  if append then s.currentOffset else 0

/-- `loadFlows(append)`: the synchronous prelude (spinner flags; on a
non-append load the offset is reset and the flow list cleared *before*
the fetch), then the resolution of the awaited `getFlowDefinitions` call
(`resp`), then the `finally` block. Returns the next state and the
toasts dispatched. -/
def loadFlows (append : Bool) (resp : Except String FlowPage)
    (s : ManagerState) : ManagerState × List Toast :=
  let s :=
    if append then { s with isLoadingMore := true }
    else { s with isLoading := true, currentOffset := 0, flows := [] }
  match resp with
  | .ok response =>
      let newFlows := processFlowData response.flows
      let s :=
        { s with
          flows := if append then s.flows ++ newFlows else newFlows
          hasMoreFlows := response.hasMore
          currentOffset := response.totalLoaded }
      ({ s with isLoading := false, isLoadingMore := false }, [])
  | .error e =>
      ({ s with isLoading := false, isLoadingMore := false },
       [Toast.error ("Error loading flows: " ++ e)])

/-- Embedding of the JS pattern `list.map((x, idx) => idx === i ? g(x) : x)`:
apply `g` to the element at index `i`, keep every other element. -/
def updateAt {α : Type} (i : Nat) (g : α → α) : List α → List α
  | [] => []
  | a :: rest => if i = 0 then g a :: rest else a :: updateAt (i - 1) g rest

/-- The synchronous part of `toggleFlowExpansion(flowId)`: locate the
flow, flip its expansion state (chevron icon, loading spinner), and
decide whether a `getFlowVersions` fetch is issued. Returns the next
state and `some flowIndex` exactly when a fetch is issued (the guard in
the source is `isExpanding && !flow.versionsLoaded`; the
`isLoadingVersions` flag is *not* consulted). -/
def toggleFlowExpansionStart (flowId : String) (s : ManagerState) :
    ManagerState × Option Nat :=
  match s.flows.findIdx? (fun f => f.id == flowId) with
  | none => (s, none)
  | some flowIndex =>
    match s.flows[flowIndex]? with
    | none => (s, none)
    | some flow =>
      let isExpanding := !flow.isExpanded
      let flows := updateAt flowIndex
        (fun f =>
          { f with
            isExpanded := isExpanding
            expandIcon := if isExpanding then "utility:chevrondown" else "utility:chevronright"
            isLoadingVersions := isExpanding && !f.versionsLoaded })
        s.flows
      ({ s with flows := flows },
       if isExpanding && !flow.versionsLoaded then some flowIndex else none)

/-- Resolution of the awaited `getFlowVersions` call inside
`toggleFlowExpansion`, for the flow at index `flowIndex` (whose
`developerName`/`flowRecordId`, read from the captured `flow` variable
in the source, are unchanged by the expansion-flag update). -/
def applyVersionResponse (flowIndex : Nat) (resp : Except String (List VersionDetail))
    (s : ManagerState) : ManagerState × List Toast :=
  match s.flows[flowIndex]? with
  | none => (s, [])
  | some flow =>
    match resp with
    | .ok versions =>
        let processedVersions :=
          processVersionData versions flow.developerName flow.flowRecordId s.selectedVersionIds
        let hasInactive := processedVersions.any fun v => !v.isActive
        let versionCount := processedVersions.length
        let flows := updateAt flowIndex
          (fun f =>
            { f with
              versions := processedVersions
              versionsLoaded := true
              isLoadingVersions := false
              hasNoInactive := !hasInactive
              allInactiveSelected :=
                checkAllInactiveSelected processedVersions s.selectedVersionIds
              versionCount := some versionCount
              versionLabel := versionCountLabel versionCount })
          s.flows
        ({ s with flows := flows }, [])
    | .error e =>
        let flows := updateAt flowIndex (fun f => { f with isLoadingVersions := false }) s.flows
        ({ s with flows := flows },
         [Toast.error ("Error loading versions: " ++ e)])

/-- `toggleFlowExpansion(flowId)` in full: the synchronous toggle, then,
when a fetch was issued, the resolution of that fetch with `resp`. -/
def toggleFlowExpansion (flowId : String) (resp : Except String (List VersionDetail))
    (s : ManagerState) : ManagerState × List Toast :=
  let r := toggleFlowExpansionStart flowId s
  match r.2 with
  | some flowIndex => applyVersionResponse flowIndex resp r.1
  | none => (r.1, [])

/-- `updateVersionSelection(versionId, isSelected)`: set the
`isSelected` flag of every loaded row with the given version id. -/
def updateVersionSelection (versionId : String) (isSelected : Bool)
    (s : ManagerState) : ManagerState :=
  { s with
    flows := s.flows.map fun flow =>
      { flow with
        versions := flow.versions.map fun version =>
          if version.id == versionId then { version with isSelected := isSelected }
          else version } }

/-- `updateFlowSelectionState()`: recompute `allInactiveSelected` for
every flow whose versions are loaded. -/
def updateFlowSelectionState (s : ManagerState) : ManagerState :=
  { s with
    flows := s.flows.map fun flow =>
      if !flow.versionsLoaded then flow
      else
        let inactiveVersions := flow.versions.filter fun v => !v.isActive
        let allInactiveSelected :=
          decide (0 < inactiveVersions.length) &&
            inactiveVersions.all fun v => decide (v.id ∈ s.selectedVersionIds)
        { flow with allInactiveSelected := allInactiveSelected } }

/-- `handleVersionSelect`: add or remove the event's version id from the
selection set (no check of the version's active flag appears in the
source), then refresh the per-row and per-flow derived flags. -/
def handleVersionSelect (versionId : String) (isChecked : Bool)
    (s : ManagerState) : ManagerState :=
  let selectedVersionIds :=
    if isChecked then insert versionId s.selectedVersionIds
    else s.selectedVersionIds.erase versionId
  let s := { s with selectedVersionIds := selectedVersionIds }
  let s := updateVersionSelection versionId isChecked s
  updateFlowSelectionState s

/-- The version-level loop of `handleSelectFlowInactive`: walk the
flow's versions in order; each inactive version is added to / removed
from the selection set (a side effect inside the JS `map` callback) and
gets its `isSelected` flag set; active versions are returned unchanged. -/
def selectInactiveVers (isChecked : Bool) :
    List Version → Finset String → List Version × Finset String
  | [], sel => ([], sel)
  | v :: rest, sel =>
      if !v.isActive then
        let sel := if isChecked then insert v.id sel else sel.erase v.id
        let r := selectInactiveVers isChecked rest sel
        ({ v with isSelected := isChecked } :: r.1, r.2)
      else
        let r := selectInactiveVers isChecked rest sel
        (v :: r.1, r.2)

/-- The flow-level loop of `handleSelectFlowInactive`: the JS `map` over
`this.flows`, threading the mutated selection set left to right; a flow
is transformed only when its id matches and its versions are loaded. -/
def selectInactiveGo (flowId : String) (isChecked : Bool) :
    List Flow → Finset String → List Flow × Finset String
  | [], sel => ([], sel)
  | flow :: rest, sel =>
      if flow.id == flowId && flow.versionsLoaded then
        let rv := selectInactiveVers isChecked flow.versions sel
        let r := selectInactiveGo flowId isChecked rest rv.2
        ({ flow with versions := rv.1, allInactiveSelected := isChecked } :: r.1, r.2)
      else
        let r := selectInactiveGo flowId isChecked rest sel
        (flow :: r.1, r.2)

/-- `handleSelectFlowInactive`: bulk-select or bulk-deselect one flow's
inactive versions. -/
def handleSelectFlowInactive (flowId : String) (isChecked : Bool)
    (s : ManagerState) : ManagerState :=
  let r := selectInactiveGo flowId isChecked s.flows s.selectedVersionIds
  { s with flows := r.1, selectedVersionIds := r.2 }

/-- The ids of the inactive versions of one version list. -/
def inactiveIdsOf (vs : List Version) : Finset String :=
  ((vs.filter fun v => !v.isActive).map fun v => v.id).toFinset

/-- The ids of the inactive versions of the flows of a list matching
`flowId` with loaded versions. -/
def inactiveIdsOfFlows (flowId : String) (fs : List Flow) : Finset String :=
  ((fs.filter fun f => f.id == flowId && f.versionsLoaded).flatMap
    fun f => (f.versions.filter fun v => !v.isActive).map fun v => v.id).toFinset

/-- The ids `handleSelectFlowInactive flowId` can touch: ids of the
inactive versions of the flows matching `flowId` with loaded versions. -/
def inactiveIdsFor (flowId : String) (s : ManagerState) : Finset String :=
  inactiveIdsOfFlows flowId s.flows

/-- Per-item result entry of the `deleteFlowVersions` response. -/
structure DeleteItemResult where
  flowVersionId : String
  success : Bool
  errorMessage : Option String
deriving DecidableEq, Repr

/-- Response shape of `deleteFlowVersions`. `results` is optional so
that a response lacking a usable results array can be modelled. -/
structure DeleteResult where
  successCount : Nat
  failureCount : Nat
  results : Option (List DeleteItemResult)
deriving DecidableEq, Repr

/-- Everything observable about one `handleConfirmDelete` run: the next
state, the id list sent to the service, whether `loadFlows()` (a full
reload, `append = false`, hence offset 0) was awaited, the toasts
dispatched, and the `console.error` diagnostics. -/
structure DeleteOutcome where
  state : ManagerState
  submittedIds : Finset String
  reloadTriggered : Bool
  toasts : List Toast
  consoleErrors : List String

/-- The `showWarning` message of the partial-failure branch; the success
and failure counts appear separately in the text. -/
def deleteWarningMessage (successCount failureCount : Nat) : String :=
  "Deleted " ++ toString successCount ++ " version(s). Failed to delete " ++
    toString failureCount ++ " version(s)."

/-- The `console.error` line for one failed deletion entry (JS renders a
missing `errorMessage` as the string undefined). -/
def deleteFailureLog (r : DeleteItemResult) : String :=
  "Failed to delete " ++ r.flowVersionId ++ ": " ++ r.errorMessage.getD "undefined"

/-- `handleConfirmDelete()`: progress fields are initialised, the whole
selection is converted to an id list (`Array.from`, no filtering; the
embedding records the submitted ids as the set itself since only their
collection, not the enumeration order, is observable) and submitted; the resolved or rejected `deleteFlowVersions` call is `resp`.
On `failureCount = 0` the response is treated as full success (the
results array is never consulted); on `failureCount ≠ 0` with no usable
results array, `result.results.filter` raises a TypeError *after* the
warning toast, which the catch block reports; the `finally` block always
clears the deleting flag and closes the modal. `reloadTriggered`
abstracts the awaited `this.loadFlows()` call of the success paths. -/
def handleConfirmDelete (resp : Except String DeleteResult)
    (s : ManagerState) : DeleteOutcome :=
  let s0 :=
    { s with
      isDeleting := true
      deletedCount := 0
      totalToDelete := s.selectedVersionIds.card
      deletionProgress := 0 }
  let idsToDelete := s0.selectedVersionIds
  match resp with
  | .error e =>
      { state := { s0 with isDeleting := false, showDeleteModal := false }
        submittedIds := idsToDelete
        reloadTriggered := false
        toasts := [Toast.error ("Error deleting flow versions: " ++ e)]
        consoleErrors := [] }
  | .ok result =>
      let s1 := { s0 with deletedCount := result.successCount, deletionProgress := 100 }
      if result.failureCount = 0 then
        { state :=
            { s1 with selectedVersionIds := ∅, isDeleting := false, showDeleteModal := false }
          submittedIds := idsToDelete
          reloadTriggered := true
          toasts :=
            [Toast.success
              ("Successfully deleted " ++ toString result.successCount ++ " flow version(s).")]
          consoleErrors := [] }
      else
        match result.results with
        | some rs =>
            { state :=
                { s1 with selectedVersionIds := ∅, isDeleting := false, showDeleteModal := false }
              submittedIds := idsToDelete
              reloadTriggered := true
              toasts := [Toast.warning (deleteWarningMessage result.successCount result.failureCount)]
              consoleErrors := (rs.filter fun r => !r.success).map deleteFailureLog }
        | none =>
            { state := { s1 with isDeleting := false, showDeleteModal := false }
              submittedIds := idsToDelete
              reloadTriggered := false
              toasts :=
                [Toast.warning (deleteWarningMessage result.successCount result.failureCount),
                 Toast.error "Error deleting flow versions: TypeError"]
              consoleErrors := [] }

/-- The checkbox/selection agreement invariant: in every flow whose
versions are loaded, a row is flagged selected exactly when its id is in
the selection set. -/
def selectionInvariant (s : ManagerState) : Prop :=
  ∀ f ∈ s.flows, f.versionsLoaded = true →
    ∀ v ∈ f.versions, (v.isSelected = true ↔ v.id ∈ s.selectedVersionIds)

/-- State well-formedness used by the selection invariant: across loaded
flows, a version id determines its version's active flag and its owning
flow's id (true of real states since ids are record ids). -/
def versionIdsConsistent (s : ManagerState) : Prop :=
  ∀ f ∈ s.flows, f.versionsLoaded = true → ∀ v ∈ f.versions,
    ∀ g ∈ s.flows, g.versionsLoaded = true → ∀ w ∈ g.versions,
      v.id = w.id → v.isActive = w.isActive ∧ f.id = g.id

/-! Concrete fixtures used by counterexamples and witnesses. -/

/-- A quiescent component state with nothing loaded. -/
def emptyState : ManagerState :=
  { sessionId := "sess"
    flows := []
    selectedVersionIds := ∅
    isLoading := false
    accessDenied := false
    searchTerm := ""
    filterType := ""
    filterStatus := ""
    hasMoreFlows := false
    currentOffset := 0
    isLoadingMore := false
    showDeleteModal := false
    isDeleting := false
    deletionProgress := 0
    deletedCount := 0
    totalToDelete := 0 }

/-- A version row known to be active (`isActive = true`). -/
def activeVersionEx : Version :=
  { id := "v300"
    versionNumber := 3
    isActive := true
    apiVersion := "61.0"
    lastModifiedDate := "2025-01-01"
    processType := "AutoLaunchedFlow"
    flowName := "MyFlow"
    flowRecordId := "fr1"
    isSelected := false
    processTypeLabel := "Autolaunched"
    statusClass := "slds-m-left_xx-small slds-badge_success"
    rowClass := "version-row version-active" }

/-- A loaded flow whose only version is the active one. -/
def flowEx : Flow :=
  { id := "f1"
    developerName := "MyFlow"
    label := some "My Flow"
    processType := "AutoLaunchedFlow"
    activeVersionId := some "v300"
    isActive := true
    versionCount := some 1
    flowRecordId := "fr1"
    isExpanded := true
    isLoadingVersions := false
    expandIcon := "utility:chevrondown"
    versionLabel := "1 version"
    processTypeLabel := "Autolaunched"
    allInactiveSelected := false
    hasNoInactive := true
    versionsLoaded := true
    versions := [activeVersionEx] }

/-- A flow summary used to build concrete pages. -/
def summaryEx : FlowSummary :=
  { id := "fX"
    developerName := "FlowX"
    label := none
    processType := "Flow"
    activeVersionId := none
    isActive := false
    versionCount := none
    flowRecordId := "frX" }

/-- A first page of 50 flows with more available. -/
def pageOneEx : FlowPage :=
  { flows := List.replicate 50 summaryEx, hasMore := true, totalLoaded := 50 }

/-- A second page of 20 flows, exhausting the list. -/
def pageTwoEx : FlowPage :=
  { flows := List.replicate 20 summaryEx, hasMore := false, totalLoaded := 70 }

/-! ## Claim theorems -/

/-- Helper: `handleVersionSelect` leaves the selection set of the
updated state equal to the inserted/erased set (the two derived-flag
refreshes do not touch it). -/
theorem handleVersionSelect_selectedVersionIds (versionId : String) (isChecked : Bool)
    (s : ManagerState) :
    (handleVersionSelect versionId isChecked s).selectedVersionIds =
      if isChecked then insert versionId s.selectedVersionIds
      else s.selectedVersionIds.erase versionId := by
  simp [handleVersionSelect, updateVersionSelection, updateFlowSelectionState]

/-- Helper: the id list submitted by `handleConfirmDelete` is always the
current selection set, whatever the response. -/
theorem handleConfirmDelete_submittedIds (resp : Except String DeleteResult)
    (s : ManagerState) :
    (handleConfirmDelete resp s).submittedIds = s.selectedVersionIds := by
  rcases resp with e | r
  · rfl
  · by_cases h : r.failureCount = 0
    · simp [handleConfirmDelete, h]
    · rcases hr : r.results with _ | rs <;> simp [handleConfirmDelete, h, hr]

/-- C1: the claim asserts that an id of a version known to be active is
never added to the selection set by `handleVersionSelect` and never
included in the ids submitted by `handleConfirmDelete`. On the state
holding one loaded flow whose version `v300` is active
(`isActive = true`, `activeVersionId = some v300`), toggling `v300` on
adds it to the selection set, and a subsequent delete submission
includes it: neither handler filters by the active flag. -/
theorem C1_counterexample :
    ("v300" ∈ (handleVersionSelect "v300" true
        { emptyState with flows := [flowEx] }).selectedVersionIds) ∧
    ("v300" ∈ (handleConfirmDelete (.error "network error")
        (handleVersionSelect "v300" true
          { emptyState with flows := [flowEx] })).submittedIds) := by
  decide

/-- C1 (amended): `handleVersionSelect` with `isChecked = true` adds the
given version id to the SelectionSet unconditionally — no active-flag
check exists at selection-toggle time — and `handleConfirmDelete`
submits exactly the current SelectionSet contents with no active-flag
filtering; the inactive-only invariant is not re-enforced at either
point. -/
theorem C1_theorem (s : ManagerState) (versionId : String)
    (resp : Except String DeleteResult) :
    versionId ∈ (handleVersionSelect versionId true s).selectedVersionIds ∧
    ∀ x : String,
      (x ∈ (handleConfirmDelete resp s).submittedIds ↔ x ∈ s.selectedVersionIds) := by
  constructor
  · rw [handleVersionSelect_selectedVersionIds]
    simp
  · intro x
    rw [handleConfirmDelete_submittedIds]

/-- C2: the claim asserts no data loss on *any* failed fetch. On a state
with one loaded flow, a failing non-append (initial/reload) fetch leaves
the flow list empty: `loadFlows` clears `this.flows` before awaiting the
request, so the previously loaded flows are lost. -/
theorem C2_counterexample :
    ({ emptyState with flows := [flowEx] } : ManagerState).flows ≠ [] ∧
    (loadFlows false (.error "boom") { emptyState with flows := [flowEx] }).1.flows = [] := by
  decide

/-- C2 (amended): on a failed *load-more* fetch the previously loaded
flows remain unchanged and an error toast is surfaced; a failed
non-append (initial/reload) fetch instead leaves the list empty, because
the list is cleared before the request is sent (the error toast is
surfaced in both cases). -/
theorem C2_theorem (s : ManagerState) (e : String) :
    (loadFlows true (.error e) s).1.flows = s.flows ∧
    Toast.error ("Error loading flows: " ++ e) ∈ (loadFlows true (.error e) s).2 ∧
    Toast.error ("Error loading flows: " ++ e) ∈ (loadFlows false (.error e) s).2 ∧
    (loadFlows false (.error e) s).1.flows = [] := by
  refine ⟨rfl, ?_, ?_, rfl⟩ <;> simp [loadFlows]

/-- C7: a first load (`append = false`) replaces the in-memory flow list
with the fetched page and a load-more (`append = true`) appends it; in
the 50-then-20 scenario the request offset of the load-more is 50, the
final list is the two processed pages in order with 70 entries, and
`hasMoreFlows` ends false. -/
theorem C7_theorem (s : ManagerState) (p1 p2 : FlowPage)
    (h1len : p1.flows.length = 50) (h1more : p1.hasMore = true)
    (h1tot : p1.totalLoaded = 50)
    (h2len : p2.flows.length = 20) (h2more : p2.hasMore = false) :
    (∀ (t : ManagerState) (q : FlowPage),
        (loadFlows false (.ok q) t).1.flows = processFlowData q.flows) ∧
    (∀ (t : ManagerState) (q : FlowPage),
        (loadFlows true (.ok q) t).1.flows = t.flows ++ processFlowData q.flows) ∧
    loadFlowsRequestOffset true (loadFlows false (.ok p1) s).1 = 50 ∧
    (loadFlows false (.ok p1) s).1.hasMoreFlows = true ∧
    (loadFlows true (.ok p2) (loadFlows false (.ok p1) s).1).1.flows =
      processFlowData p1.flows ++ processFlowData p2.flows ∧
    (loadFlows true (.ok p2) (loadFlows false (.ok p1) s).1).1.flows.length = 70 ∧
    (loadFlows true (.ok p2) (loadFlows false (.ok p1) s).1).1.hasMoreFlows = false := by
  refine ⟨fun t q => rfl, fun t q => rfl, ?_, ?_, rfl, ?_, ?_⟩
  · simpa [loadFlows, loadFlowsRequestOffset] using h1tot
  · simpa [loadFlows] using h1more
  · simp [loadFlows, processFlowData, h1len, h2len]
  · simpa [loadFlows] using h2more

/-- C7 witness: the scenario evaluated on concrete 50- and 20-element
pages. -/
theorem C7_witness :
    (loadFlows true (.ok pageTwoEx)
        (loadFlows false (.ok pageOneEx) emptyState).1).1.flows.length = 70 ∧
    (loadFlows true (.ok pageTwoEx)
        (loadFlows false (.ok pageOneEx) emptyState).1).1.hasMoreFlows = false :=
  ⟨(C7_theorem emptyState pageOneEx pageTwoEx (by decide) rfl rfl (by decide)
      rfl).2.2.2.2.2.1,
   (C7_theorem emptyState pageOneEx pageTwoEx (by decide) rfl rfl (by decide)
      rfl).2.2.2.2.2.2⟩

/-- C8: the claim asserts the true-then-false toggle round-trip for
*every* SelectionSet state. On a state whose SelectionSet already
contains the toggled id, the round-trip ends with the id removed, not
with the prior state: `add` of a present id is a no-op but the final
`delete` still removes it. -/
theorem C8_counterexample :
    (handleVersionSelect "v1" false (handleVersionSelect "v1" true
        { emptyState with selectedVersionIds := {"v1"} })).selectedVersionIds ≠
      ({ emptyState with selectedVersionIds := {"v1"} } : ManagerState).selectedVersionIds := by
  decide

/-- C8 (amended): toggling a version id on and then off returns the
SelectionSet to its prior state whenever the id was not already
selected. -/
theorem C8_theorem (s : ManagerState) (versionId : String)
    (h : versionId ∉ s.selectedVersionIds) :
    (handleVersionSelect versionId false
        (handleVersionSelect versionId true s)).selectedVersionIds =
      s.selectedVersionIds := by
  rw [handleVersionSelect_selectedVersionIds, handleVersionSelect_selectedVersionIds]
  simp [Finset.erase_insert h]

/-- C8 witness: the round-trip on a concrete not-yet-selected id. -/
theorem C8_witness :
    "v9" ∉ emptyState.selectedVersionIds ∧
    (handleVersionSelect "v9" false
        (handleVersionSelect "v9" true emptyState)).selectedVersionIds =
      emptyState.selectedVersionIds :=
  ⟨by decide, C8_theorem emptyState "v9" (by decide)⟩

/-- Helper: an `if`-guarded filter stage preserves sublists. -/
theorem sublist_if_filter {c : Prop} [Decidable c] (p : Flow → Bool)
    {t l : List Flow} (h : List.Sublist t l) :
    List.Sublist (if c then t.filter p else t) l := by
  split
  · exact (List.filter_sublist t).trans h
  · exact h

/-- C9: for every state (hence every combination of the three filters),
`filteredFlows` is an order-preserving subset — a sublist — of `flows`,
and the `noResults` condition can only hold once loading is finished,
distinguishing the filtered-to-empty state from the loading state. -/
theorem C9_theorem (s : ManagerState) :
    List.Sublist (filteredFlows s) s.flows ∧
    (noResults s = true → s.isLoading = false) := by
  constructor
  · simp only [filteredFlows]
    exact sublist_if_filter _ (sublist_if_filter _ (sublist_if_filter _ (List.Sublist.refl _)))
  · intro h
    have h1 := (Bool.and_eq_true _ _).mp h
    simpa using h1.1

/-- C9 witness: a concrete filtered-to-empty, not-loading state. -/
theorem C9_witness :
    List.Sublist (filteredFlows { emptyState with searchTerm := "zz", flows := [flowEx] })
      ({ emptyState with searchTerm := "zz", flows := [flowEx] } : ManagerState).flows ∧
    ({ emptyState with searchTerm := "zz", flows := [flowEx] } : ManagerState).isLoading = false :=
  ⟨(C9_theorem { emptyState with searchTerm := "zz", flows := [flowEx] }).1,
   (C9_theorem { emptyState with searchTerm := "zz", flows := [flowEx] }).2 (by decide)⟩

/-- C3: the claim treats every response lacking a usable results array
as a total failure with selection preserved and no reload. On the
response `successCount = 1, failureCount = 0, results = none` the code
takes the full-success branch without ever consulting the results
array: the SelectionSet is cleared and a reload is triggered. -/
theorem C3_counterexample :
    (handleConfirmDelete (.ok { successCount := 1, failureCount := 0, results := none })
        { emptyState with selectedVersionIds := {"v1"} }).state.selectedVersionIds ≠
      ({ emptyState with selectedVersionIds := {"v1"} } : ManagerState).selectedVersionIds ∧
    (handleConfirmDelete (.ok { successCount := 1, failureCount := 0, results := none })
        { emptyState with selectedVersionIds := {"v1"} }).reloadTriggered = true := by
  decide

/-- C3 (amended): if the `deleteFlowVersions` call rejects, or resolves
with `failureCount ≠ 0` but no usable results array (so that
`result.results.filter` throws into the catch block), then the
SelectionSet keeps its pre-submission value, no reload is triggered, and
exactly one error toast is surfaced; a resolution with
`failureCount = 0` is treated as full success even without a results
array. -/
theorem C3_theorem (s : ManagerState) :
    (∀ e : String,
      (handleConfirmDelete (.error e) s).state.selectedVersionIds = s.selectedVersionIds ∧
      (handleConfirmDelete (.error e) s).reloadTriggered = false ∧
      ((handleConfirmDelete (.error e) s).toasts.filter Toast.isError).length = 1) ∧
    (∀ dr : DeleteResult, dr.failureCount ≠ 0 → dr.results = none →
      (handleConfirmDelete (.ok dr) s).state.selectedVersionIds = s.selectedVersionIds ∧
      (handleConfirmDelete (.ok dr) s).reloadTriggered = false ∧
      ((handleConfirmDelete (.ok dr) s).toasts.filter Toast.isError).length = 1) := by
  refine ⟨fun e => ⟨rfl, rfl, rfl⟩, fun dr h hr => ?_⟩
  refine ⟨?_, ?_, ?_⟩ <;> simp [handleConfirmDelete, h, hr, Toast.isError]

/-- C3 witness: a rejected call and a `failureCount = 2, results = none`
resolution, both on a two-element selection. -/
theorem C3_witness :
    ((handleConfirmDelete (.error "401")
        { emptyState with selectedVersionIds := {"v1", "v2"} }).state.selectedVersionIds =
      ({ emptyState with selectedVersionIds := {"v1", "v2"} } : ManagerState).selectedVersionIds ∧
     (handleConfirmDelete (.error "401")
        { emptyState with selectedVersionIds := {"v1", "v2"} }).reloadTriggered = false ∧
     ((handleConfirmDelete (.error "401")
        { emptyState with selectedVersionIds := {"v1", "v2"} }).toasts.filter
          Toast.isError).length = 1) ∧
    ((handleConfirmDelete (.ok { successCount := 0, failureCount := 2, results := none })
        { emptyState with selectedVersionIds := {"v1", "v2"} }).state.selectedVersionIds =
      ({ emptyState with selectedVersionIds := {"v1", "v2"} } : ManagerState).selectedVersionIds ∧
     (handleConfirmDelete (.ok { successCount := 0, failureCount := 2, results := none })
        { emptyState with selectedVersionIds := {"v1", "v2"} }).reloadTriggered = false ∧
     ((handleConfirmDelete (.ok { successCount := 0, failureCount := 2, results := none })
        { emptyState with selectedVersionIds := {"v1", "v2"} }).toasts.filter
          Toast.isError).length = 1) :=
  ⟨(C3_theorem { emptyState with selectedVersionIds := {"v1", "v2"} }).1 "401",
   (C3_theorem { emptyState with selectedVersionIds := {"v1", "v2"} }).2
     { successCount := 0, failureCount := 2, results := none } (by decide) rfl⟩

/-- The partial-failure per-item results used by the C4 example: four
entries, exactly one with `success = false`. -/
def deleteResultsEx : List DeleteItemResult :=
  [{ flowVersionId := "a", success := true, errorMessage := none },
   { flowVersionId := "b", success := true, errorMessage := none },
   { flowVersionId := "c", success := true, errorMessage := none },
   { flowVersionId := "d", success := false, errorMessage := some "FLOW_VERSION_ACTIVE" }]

/-- The C4 example response: `successCount = 3, failureCount = 1`. -/
def deleteResponseEx : DeleteResult :=
  { successCount := 3, failureCount := 1, results := some deleteResultsEx }

/-- The C4 example pre-submission state: four selected ids. -/
def delStateEx : ManagerState :=
  { emptyState with selectedVersionIds := {"a", "b", "c", "d"} }

/-- C4: on every partial-success response (`failureCount ≠ 0` with a
results array), the success and failure counts are reported separately
in the warning toast, each `success = false` entry is logged to
diagnostics with its id and message, the SelectionSet becomes empty, and
a full reload — `loadFlows()` with `append = false`, which requests
offset 0 — is triggered. -/
theorem C4_theorem (s : ManagerState) (dr : DeleteResult) (rs : List DeleteItemResult)
    (hres : dr.results = some rs) (hfail : dr.failureCount ≠ 0) :
    (handleConfirmDelete (.ok dr) s).state.selectedVersionIds = ∅ ∧
    (handleConfirmDelete (.ok dr) s).reloadTriggered = true ∧
    (handleConfirmDelete (.ok dr) s).toasts =
      [Toast.warning (deleteWarningMessage dr.successCount dr.failureCount)] ∧
    (handleConfirmDelete (.ok dr) s).consoleErrors =
      (rs.filter fun r => !r.success).map deleteFailureLog ∧
    loadFlowsRequestOffset false (handleConfirmDelete (.ok dr) s).state = 0 := by
  refine ⟨?_, ?_, ?_, ?_, rfl⟩ <;> simp [handleConfirmDelete, hres, hfail]

/-- C4 witness: the `successCount = 3, failureCount = 1` example with
one failed entry produces exactly one diagnostic log line. -/
theorem C4_witness :
    ((handleConfirmDelete (.ok deleteResponseEx) delStateEx).state.selectedVersionIds = ∅ ∧
     (handleConfirmDelete (.ok deleteResponseEx) delStateEx).reloadTriggered = true ∧
     (handleConfirmDelete (.ok deleteResponseEx) delStateEx).toasts =
       [Toast.warning (deleteWarningMessage deleteResponseEx.successCount
          deleteResponseEx.failureCount)] ∧
     (handleConfirmDelete (.ok deleteResponseEx) delStateEx).consoleErrors =
       (deleteResultsEx.filter fun r => !r.success).map deleteFailureLog ∧
     loadFlowsRequestOffset false (handleConfirmDelete (.ok deleteResponseEx) delStateEx).state
       = 0) ∧
    (handleConfirmDelete (.ok deleteResponseEx) delStateEx).consoleErrors.length = 1 :=
  ⟨C4_theorem delStateEx deleteResponseEx deleteResultsEx rfl (by decide), by decide⟩

/-- A state holding exactly one freshly listed (never expanded) flow,
used for the C6 trace. -/
def c6State : ManagerState :=
  { emptyState with flows := processFlowData [summaryEx] }

/-- C6: the spec requires the versions-loaded/loading guard flags to
prevent a duplicate in-flight `getFlowVersions` fetch for the same flow,
but the guard in `toggleFlowExpansion` tests only `versionsLoaded` and
never `isLoadingVersions`. Trace: expand (a fetch is issued), collapse
(no fetch), re-expand before the first response resolves — a second
fetch is issued for the same flow, so two fetches are in flight at once.
The loaded-flag half of the guard does hold: once a load has completed,
collapse/re-expand issues no further fetch. -/
theorem C6_theorem :
    (toggleFlowExpansionStart "fX" c6State).2 = some 0 ∧
    (toggleFlowExpansionStart "fX" (toggleFlowExpansionStart "fX" c6State).1).2 = none ∧
    (toggleFlowExpansionStart "fX"
        (toggleFlowExpansionStart "fX" (toggleFlowExpansionStart "fX" c6State).1).1).2 =
      some 0 ∧
    (toggleFlowExpansionStart "fX" (toggleFlowExpansion "fX" (.ok []) c6State).1).2 = none ∧
    (toggleFlowExpansionStart "fX"
        (toggleFlowExpansionStart "fX" (toggleFlowExpansion "fX" (.ok []) c6State).1).1).2 =
      none := by
  decide

/-- Helper: the version list produced by the bulk toggle flips the
`isSelected` flag of exactly the inactive versions, independently of the
threaded selection set. -/
theorem selectInactiveVers_fst (c : Bool) (vs : List Version) (sel : Finset String) :
    (selectInactiveVers c vs sel).1 =
      vs.map fun v => if !v.isActive then { v with isSelected := c } else v := by
  induction vs generalizing sel with
  | nil => rfl
  | cons v rest ih =>
    by_cases h : (!v.isActive) = true
    · have h' : v.isActive = false := by simpa using h
      simp [selectInactiveVers, h, h', ih]
    · have h' : v.isActive = true := by simpa using h
      simp [selectInactiveVers, h, h', ih]

/-- Helper: the selection set produced by the version-level bulk toggle
is the union with (respectively difference by) the inactive ids. -/
theorem selectInactiveVers_snd (c : Bool) (vs : List Version) (sel : Finset String) :
    (selectInactiveVers c vs sel).2 =
      if c then sel ∪ inactiveIdsOf vs else sel \ inactiveIdsOf vs := by
  induction vs generalizing sel with
  | nil => cases c <;> simp [selectInactiveVers, inactiveIdsOf]
  | cons v rest ih =>
    by_cases h : (!v.isActive) = true
    · have hI : inactiveIdsOf (v :: rest) = insert v.id (inactiveIdsOf rest) := by
        simp [inactiveIdsOf, List.filter_cons, h]
      cases c
      · simp only [selectInactiveVers, h, if_true, Bool.false_eq_true, if_false, ih, hI]
        rw [Finset.erase_eq, sdiff_sdiff, Finset.insert_eq, Finset.sup_eq_union]
      · simp only [selectInactiveVers, h, if_true, ih, hI]
        rw [Finset.insert_union, Finset.union_insert]
    · have hI : inactiveIdsOf (v :: rest) = inactiveIdsOf rest := by
        simp [inactiveIdsOf, List.filter_cons, h]
      cases c <;> simp [selectInactiveVers, h, ih, hI]

/-- Helper: the flow list produced by `handleSelectFlowInactive` maps
exactly the matching loaded flows, flipping their inactive versions. -/
theorem selectInactiveGo_fst (flowId : String) (c : Bool) (fs : List Flow)
    (sel : Finset String) :
    (selectInactiveGo flowId c fs sel).1 =
      fs.map fun f =>
        if f.id == flowId && f.versionsLoaded then
          { f with
            versions :=
              f.versions.map fun v => if !v.isActive then { v with isSelected := c } else v
            allInactiveSelected := c }
        else f := by
  induction fs generalizing sel with
  | nil => rfl
  | cons f rest ih =>
    by_cases h : (f.id == flowId && f.versionsLoaded) = true
    · have h' : f.id = flowId ∧ f.versionsLoaded = true := by simpa using h
      simp [selectInactiveGo, h, h', ih, selectInactiveVers_fst]
    · have h' : ¬(f.id = flowId ∧ f.versionsLoaded = true) := by simpa using h
      simp [selectInactiveGo, h, h', ih]

/-- Helper: the selection set produced by `handleSelectFlowInactive` is
the union with (respectively difference by) the matching flows' inactive
ids. -/
theorem selectInactiveGo_snd (flowId : String) (c : Bool) (fs : List Flow)
    (sel : Finset String) :
    (selectInactiveGo flowId c fs sel).2 =
      if c then sel ∪ inactiveIdsOfFlows flowId fs
      else sel \ inactiveIdsOfFlows flowId fs := by
  induction fs generalizing sel with
  | nil => cases c <;> simp [selectInactiveGo, inactiveIdsOfFlows]
  | cons f rest ih =>
    by_cases h : (f.id == flowId && f.versionsLoaded) = true
    · have hI : inactiveIdsOfFlows flowId (f :: rest) =
          inactiveIdsOf f.versions ∪ inactiveIdsOfFlows flowId rest := by
        simp [inactiveIdsOfFlows, inactiveIdsOf, List.filter_cons, h]
      cases c
      · simp only [selectInactiveGo, h, if_true, Bool.false_eq_true, if_false, ih,
          selectInactiveVers_snd, hI]
        rw [sdiff_sdiff, Finset.sup_eq_union]
      · simp only [selectInactiveGo, h, if_true, ih, selectInactiveVers_snd, hI]
        rw [Finset.union_assoc]
    · have hI : inactiveIdsOfFlows flowId (f :: rest) = inactiveIdsOfFlows flowId rest := by
        simp [inactiveIdsOfFlows, List.filter_cons, h]
      cases c <;> simp [selectInactiveGo, h, ih, hI]

/-- Helper: membership characterization of the matching flows' inactive
ids. -/
theorem mem_inactiveIdsOfFlows {x flowId : String} {fs : List Flow} :
    x ∈ inactiveIdsOfFlows flowId fs ↔
      ∃ f, f ∈ fs ∧ f.id = flowId ∧ f.versionsLoaded = true ∧
        ∃ v, v ∈ f.versions ∧ v.isActive = false ∧ v.id = x := by
  simp only [inactiveIdsOfFlows, List.mem_toFinset, List.mem_flatMap, List.mem_filter,
    List.mem_map, Bool.and_eq_true, beq_iff_eq, Bool.not_eq_true']
  constructor
  · rintro ⟨f, ⟨hf, hid, hl⟩, v, ⟨hv, ha⟩, rfl⟩
    exact ⟨f, hf, hid, hl, v, hv, ha, rfl⟩
  · rintro ⟨f, hf, hid, hl, v, hv, ha, rfl⟩
    exact ⟨f, ⟨hf, hid, hl⟩, v, ⟨hv, ha⟩, rfl⟩

/-- C5: for every state, flow id and direction, the bulk toggle updates
the SelectionSet to exactly the union with (when selecting) or the
difference by (when deselecting) the matching loaded flow's inactive
version ids; those ids come only from versions whose stored `isActive`
flag is `false` (a version whose data flags it active — even stale data
— is skipped), so no active-flagged version id is ever added. -/
theorem C5_theorem (s : ManagerState) (flowId : String) (c : Bool) :
    ((handleSelectFlowInactive flowId c s).selectedVersionIds =
      if c then s.selectedVersionIds ∪ inactiveIdsFor flowId s
      else s.selectedVersionIds \ inactiveIdsFor flowId s) ∧
    (∀ x : String, x ∈ inactiveIdsFor flowId s ↔
      ∃ f, f ∈ s.flows ∧ f.id = flowId ∧ f.versionsLoaded = true ∧
        ∃ v, v ∈ f.versions ∧ v.isActive = false ∧ v.id = x) ∧
    (∀ x : String, x ∈ (handleSelectFlowInactive flowId c s).selectedVersionIds →
      x ∈ s.selectedVersionIds ∨ x ∈ inactiveIdsFor flowId s) := by
  have hsel : (handleSelectFlowInactive flowId c s).selectedVersionIds =
      if c then s.selectedVersionIds ∪ inactiveIdsFor flowId s
      else s.selectedVersionIds \ inactiveIdsFor flowId s :=
    selectInactiveGo_snd flowId c s.flows s.selectedVersionIds
  refine ⟨hsel, fun x => mem_inactiveIdsOfFlows, fun x hx => ?_⟩
  rw [hsel] at hx
  cases c
  · exact Or.inl (Finset.mem_sdiff.mp (by simpa using hx)).1
  · exact Finset.mem_union.mp (by simpa using hx)

/-- Helper: every element of `updateAt i g l` is an element of `l` or
the image under `g` of an element of `l`. -/
theorem mem_updateAt {α : Type} {i : Nat} {g : α → α} {l : List α} {a : α}
    (h : a ∈ updateAt i g l) : ∃ b, b ∈ l ∧ (a = b ∨ a = g b) := by
  induction l generalizing i with
  | nil => simp [updateAt] at h
  | cons x xs ih =>
    by_cases hi : i = 0
    · subst hi
      simp only [updateAt, if_pos rfl] at h
      rcases List.mem_cons.mp h with h | h
      · exact ⟨x, List.mem_cons_self x xs, Or.inr h⟩
      · exact ⟨a, List.mem_cons_of_mem x h, Or.inl rfl⟩
    · simp only [updateAt, if_neg hi] at h
      rcases List.mem_cons.mp h with h | h
      · exact ⟨x, List.mem_cons_self x xs, Or.inl h⟩
      · obtain ⟨b, hb, hab⟩ := ih h
        exact ⟨b, List.mem_cons_of_mem x hb, hab⟩

/-- Helper: `handleVersionSelect` maps each flow keeping its loaded flag
and re-flagging exactly the rows matching the toggled id. -/
theorem handleVersionSelect_flows_shape (versionId : String) (c : Bool) (s : ManagerState) :
    ∀ f' ∈ (handleVersionSelect versionId c s).flows,
      ∃ f, f ∈ s.flows ∧ f'.versionsLoaded = f.versionsLoaded ∧
        f'.versions = f.versions.map fun v =>
          if v.id == versionId then { v with isSelected := c } else v := by
  intro f' hf'
  simp only [handleVersionSelect, updateFlowSelectionState, updateVersionSelection,
    List.map_map, List.mem_map, Function.comp] at hf'
  obtain ⟨f, hf, hEq⟩ := hf'
  refine ⟨f, hf, ?_, ?_⟩
  · rw [← hEq]
    dsimp only
    split <;> rfl
  · rw [← hEq]
    dsimp only
    split <;> rfl

/-- Helper: the expansion toggle's synchronous half preserves the
checkbox/selection agreement invariant (it touches neither version lists
nor the selection set). -/
theorem toggleFlowExpansionStart_inv (flowId : String) (s : ManagerState)
    (hInv : selectionInvariant s) :
    selectionInvariant (toggleFlowExpansionStart flowId s).1 := by
  cases hIdx : s.flows.findIdx? (fun f => f.id == flowId) with
  | none => simpa [toggleFlowExpansionStart, hIdx] using hInv
  | some flowIndex =>
    cases hGet : s.flows[flowIndex]? with
    | none => simpa [toggleFlowExpansionStart, hIdx, hGet] using hInv
    | some flow =>
      simp only [toggleFlowExpansionStart, hIdx, hGet]
      intro f' hf' hl v' hv'
      obtain ⟨b, hb, hab⟩ := mem_updateAt hf'
      rcases hab with hab | hab <;> rw [hab] at hl hv' <;> exact hInv b hb hl v' hv'

/-- Helper: applying a version-fetch response preserves the invariant —
the freshly processed rows are flagged from the current selection set. -/
theorem applyVersionResponse_inv (flowIndex : Nat)
    (resp : Except String (List VersionDetail)) (s : ManagerState)
    (hInv : selectionInvariant s) :
    selectionInvariant (applyVersionResponse flowIndex resp s).1 := by
  cases hGet : s.flows[flowIndex]? with
  | none => simpa [applyVersionResponse, hGet] using hInv
  | some flow =>
    cases resp with
    | error e =>
      simp only [applyVersionResponse, hGet]
      intro f' hf' hl v' hv'
      obtain ⟨b, hb, hab⟩ := mem_updateAt hf'
      rcases hab with hab | hab <;> rw [hab] at hl hv' <;> exact hInv b hb hl v' hv'
    | ok versions =>
      simp only [applyVersionResponse, hGet]
      intro f' hf' hl v' hv'
      obtain ⟨b, hb, hab⟩ := mem_updateAt hf'
      rcases hab with hab | hab
      · rw [hab] at hl hv'
        exact hInv b hb hl v' hv'
      · rw [hab] at hv'
        obtain ⟨d, hd, rfl⟩ := List.mem_map.mp hv'
        simp [processVersionData]

/-- C10: the displayed `isSelected` flag of every loaded row agrees with
SelectionSet membership, and this agreement is preserved by the
single-version toggle, by the bulk select-all-inactive toggle (given the
well-formedness that a version id determines its record), and by every
version load through `toggleFlowExpansion`. -/
theorem C10_theorem :
    (∀ (s : ManagerState) (versionId : String) (isChecked : Bool),
        selectionInvariant s →
        selectionInvariant (handleVersionSelect versionId isChecked s)) ∧
    (∀ (s : ManagerState) (flowId : String) (isChecked : Bool),
        selectionInvariant s → versionIdsConsistent s →
        selectionInvariant (handleSelectFlowInactive flowId isChecked s)) ∧
    (∀ (s : ManagerState) (flowId : String) (resp : Except String (List VersionDetail)),
        selectionInvariant s →
        selectionInvariant (toggleFlowExpansion flowId resp s).1) := by
  refine ⟨?_, ?_, ?_⟩
  · -- single-version toggle
    intro s versionId c hInv f' hf' hl v' hv'
    obtain ⟨f, hf, hvl, hvs⟩ := handleVersionSelect_flows_shape versionId c s f' hf'
    rw [hvs] at hv'
    obtain ⟨v, hv, rfl⟩ := List.mem_map.mp hv'
    rw [handleVersionSelect_selectedVersionIds]
    have hInvf := hInv f hf (hvl ▸ hl) v hv
    cases hid : (v.id == versionId)
    · have hid' : ¬(v.id = versionId) := by simpa using hid
      cases c <;>
        simp [hid, Finset.mem_erase, Finset.mem_insert, hid', hInvf]
    · have hid' : v.id = versionId := by simpa using hid
      cases c <;> simp [hid, hid', Finset.not_mem_erase]
  · -- bulk select-all-inactive
    intro s flowId c hInv hCons f' hf' hl v' hv'
    have hflows : (handleSelectFlowInactive flowId c s).flows =
        s.flows.map fun f =>
          if f.id == flowId && f.versionsLoaded then
            { f with
              versions :=
                f.versions.map fun v => if !v.isActive then { v with isSelected := c } else v
              allInactiveSelected := c }
          else f :=
      selectInactiveGo_fst flowId c s.flows s.selectedVersionIds
    have hsel : (handleSelectFlowInactive flowId c s).selectedVersionIds =
        if c then s.selectedVersionIds ∪ inactiveIdsOfFlows flowId s.flows
        else s.selectedVersionIds \ inactiveIdsOfFlows flowId s.flows :=
      selectInactiveGo_snd flowId c s.flows s.selectedVersionIds
    rw [hflows] at hf'
    obtain ⟨f, hf, rfl⟩ := List.mem_map.mp hf'
    rw [hsel]
    cases hm : (f.id == flowId && f.versionsLoaded)
    · -- flow untouched
      simp only [hm, Bool.false_eq_true, if_false] at hv' hl
      have hxI : v'.id ∉ inactiveIdsOfFlows flowId s.flows := by
        intro hx
        obtain ⟨f₂, hf₂, hid₂, hl₂, w, hw, hwa, hwid⟩ := mem_inactiveIdsOfFlows.mp hx
        have hfid := (hCons f hf hl v' hv' f₂ hf₂ hl₂ w hw hwid.symm).2
        have : (f.id == flowId && f.versionsLoaded) = true := by
          simp [hfid.trans hid₂, hl]
        rw [hm] at this
        exact Bool.noConfusion this
      cases c
      · simp [Bool.false_eq_true, if_false, Finset.mem_sdiff, hxI, hInv f hf hl v' hv']
      · simp [Finset.mem_union, hxI, hInv f hf hl v' hv']
    · -- matching loaded flow
      have hm' : f.id = flowId ∧ f.versionsLoaded = true := by simpa using hm
      simp only [hm, if_true] at hv'
      obtain ⟨v, hv, rfl⟩ := List.mem_map.mp hv'
      cases ha : (!v.isActive)
      · -- active version: untouched, and its id is not among the bulk ids
        have ha' : v.isActive = true := by simpa using ha
        have hxI : v.id ∉ inactiveIdsOfFlows flowId s.flows := by
          intro hx
          obtain ⟨f₂, hf₂, hid₂, hl₂, w, hw, hwa, hwid⟩ := mem_inactiveIdsOfFlows.mp hx
          have hva := (hCons f hf hm'.2 v hv f₂ hf₂ hl₂ w hw hwid.symm).1
          rw [ha', hwa] at hva
          exact Bool.noConfusion hva
        cases c
        · simp [ha, Bool.false_eq_true, Finset.mem_sdiff, hxI, hInv f hf hm'.2 v hv]
        · simp [ha, Bool.false_eq_true, Finset.mem_union, hxI, hInv f hf hm'.2 v hv]
      · -- inactive version: re-flagged, and its id is among the bulk ids
        have ha' : v.isActive = false := by simpa using ha
        have hxI : v.id ∈ inactiveIdsOfFlows flowId s.flows :=
          mem_inactiveIdsOfFlows.mpr ⟨f, hf, hm'.1, hm'.2, v, hv, ha', rfl⟩
        cases c
        · simp [ha, Bool.false_eq_true, Finset.mem_sdiff, hxI]
        · simp [ha, Finset.mem_union, hxI]
  · -- version load through the expansion toggle
    intro s flowId resp hInv
    unfold toggleFlowExpansion
    cases hFetch : (toggleFlowExpansionStart flowId s).2 with
    | none =>
      simp only [hFetch]
      exact toggleFlowExpansionStart_inv flowId s hInv
    | some flowIndex =>
      simp only [hFetch]
      exact applyVersionResponse_inv flowIndex resp _
        (toggleFlowExpansionStart_inv flowId s hInv)

/-- An inactive version row of the witness flow. -/
def inactiveVersionEx : Version :=
  { id := "v200"
    versionNumber := 2
    isActive := false
    apiVersion := "61.0"
    lastModifiedDate := "2024-12-01"
    processType := "AutoLaunchedFlow"
    flowName := "MyFlow"
    flowRecordId := "fr1"
    isSelected := false
    processTypeLabel := "Autolaunched"
    statusClass := "slds-m-left_xx-small"
    rowClass := "version-row" }

/-- A loaded flow with one active and one inactive version. -/
def flowEx2 : Flow :=
  { flowEx with
    versions := [activeVersionEx, inactiveVersionEx]
    versionCount := some 2
    versionLabel := "2 versions"
    hasNoInactive := false }

/-- A state holding `flowEx2`, satisfying the invariant (nothing is
selected and nothing is flagged). -/
def invStateEx : ManagerState := { emptyState with flows := [flowEx2] }

/-- C10 witness: the three preservation statements applied to a concrete
invariant-satisfying state. -/
theorem C10_witness :
    selectionInvariant (handleVersionSelect "v200" true invStateEx) ∧
    selectionInvariant (handleSelectFlowInactive "f1" true invStateEx) ∧
    selectionInvariant (toggleFlowExpansion "f1" (.ok []) invStateEx).1 :=
  ⟨C10_theorem.1 invStateEx "v200" true (by unfold selectionInvariant; decide),
   C10_theorem.2.1 invStateEx "f1" true (by unfold selectionInvariant; decide)
     (by unfold versionIdsConsistent; decide),
   C10_theorem.2.2 invStateEx "f1" (.ok []) (by unfold selectionInvariant; decide)⟩

end FlowVersionManager
